import Mathlib

/-!
Shallow embedding of the `koa-happy-router` core (`HappyRouter` class in
`src/lib/index.ts` = `src/unnamed/part_003`): the middleware registry,
the ordering declaration (`sortMiddlewares`), the route compiler
(`addRoutes`) and the error boundary (`createHandler`).

Modelling conventions:
 * A JS `Map<string, Middlewares>` is a `List (String × (Value → M))`
   with `set` overwriting the binding for an existing key; `M` is the
   (opaque) type of executable middlewares, a factory is `Value → M`.
 * A JS `Set<string>` (insertion ordered) is a duplicate-free
   `List String` grown by `setAdd`.
 * A `Route` object has the four reserved fields as structure fields and
   all other fields, in field-enumeration (declaration) order, in
   `extraFields`; `objectKeys` models `Object.keys(route)`.  A field
   whose value is `undefined` is still enumerated, matching JS.
 * The chain handed to the external koa-router is a `List (ChainElem M H)`;
   a `resolved` element carries, as specification-level provenance, the
   registry key and the argument the factory was called with, next to the
   executable middleware `factory arg` itself; `routeLocal` wraps a
   route-local middleware verbatim; `terminal` is the closing arrow
   function `(ctx, next) => route.handler && this.createHandler(...)`,
   which the source appends unconditionally and which carries the
   (optional) handler.
 * Handlers are `Ctx → Except E Unit`: `Except.error e` models a
   synchronous throw or an asynchronous rejection with value `e` (the
   source `await`s, so both reach the same `catch`).  `createHandler`
   returns a `HandlerOutcome`: what escapes the wrapped call plus the
   trace of `errorHandler(error, context)` invocations; the configured
   error handler itself is an opaque token of type `EH`.
-/

/-- A JS value appearing as a route field value / middleware argument. -/
inductive Value where
  | undef
  | null
  | bool (b : Bool)
  | num (n : Int)
  | str (s : String)
deriving DecidableEq

/-- Keys of the `REQUEST_METHODS` enum (`src/unnamed/part_002`). -/
inductive MethodKey where
  | ALL
  | GET
  | PUT
  | POST
  | PATCH
  | DELETE
  | OPTIONS
deriving DecidableEq

/-- The `REQUEST_METHODS` enum: key to koa-router method name. -/
def REQUEST_METHODS : MethodKey → String
  | MethodKey.ALL => "all"
  | MethodKey.GET => "get"
  | MethodKey.PUT => "put"
  | MethodKey.POST => "post"
  | MethodKey.PATCH => "patch"
  | MethodKey.DELETE => "delete"
  | MethodKey.OPTIONS => "options"

/-- `INITIAL_METHOD = "ALL"` (`src/unnamed/part_002`). -/
def INITIAL_METHOD : MethodKey := MethodKey.ALL

/-- `INITIAL_ROUTE_FIELDS` (`src/unnamed/part_002`): the reserved route fields. -/
def INITIAL_ROUTE_FIELDS : List String := ["url", "method", "middlewares", "handler"]

/-- `Map.set`: overwrite the binding if the key exists, else append. -/
def mapSet {α : Type} (m : List (String × α)) (k : String) (v : α) : List (String × α) :=
  if m.any (fun p => p.1 == k) then
    m.map (fun p => if p.1 == k then (k, v) else p)
  else
    m ++ [(k, v)]

/-- `Map.has`. -/
def mapHas {α : Type} (m : List (String × α)) (k : String) : Bool :=
  m.any (fun p => p.1 == k)

/-- `Map.get` (first binding for the key). -/
def mapGet {α : Type} (m : List (String × α)) (k : String) : Option α :=
  (m.find? (fun p => p.1 == k)).map (fun p => p.2)

/-- `Set.add` on an insertion-ordered set: a no-op on a present key. -/
def setAdd (s : List String) (key : String) : List String :=
  if key ∈ s then s else s ++ [key]

/-- A route object (`Route<T>` in the source): the four reserved fields plus
the extra fields (middleware-argument fields) in declaration order. -/
structure Route (M H : Type) where
  url : String
  method : Option MethodKey
  middlewares : Option (List M)
  handler : Option H
  extraFields : List (String × Value)

/-- `Object.keys(route)`: the reserved fields present, then the extra
fields in declaration order (JS own-property order for string keys). -/
def objectKeys {M H : Type} (route : Route M H) : List String :=
  ["url"]
    ++ (if route.method.isSome then ["method"] else [])
    ++ (if route.middlewares.isSome then ["middlewares"] else [])
    ++ (if route.handler.isSome then ["handler"] else [])
    ++ route.extraFields.map Prod.fst

/-- `route[key]` for a dynamic field access: the value of the first extra
field named `key` (`Value.undef` when absent, as in JS). -/
def routeField {M H : Type} (route : Route M H) (key : String) : Value :=
  match route.extraFields.find? (fun p => p.1 == key) with
  | some p => p.2
  | none => Value.undef

/-- One element of a compiled chain, as submitted to the external router.
`resolved` keeps the registry key and factory argument as provenance next
to the executable middleware produced by the factory call. -/
inductive ChainElem (M H : Type) where
  | resolved (key : String) (arg : Value) (mw : M)
  | routeLocal (mw : M)
  | terminal (handler : Option H)
deriving DecidableEq

/-- The setup state of one `HappyRouter` instance, plus the registrations
accumulated by the underlying external router instance. -/
structure RouterState (M H EH : Type) where
  enableLogger : Bool
  errorHandler : Option EH
  middlewaresKeys : List String
  middlewaresStack : List (String × (Value → M))
  registeredChains : List (String × String × List (ChainElem M H))

/-- `routeInstance(url, ...chain)`: one registration on the external router. -/
def registerChain {M H EH : Type} (s : RouterState M H EH) (method : String)
    (url : String) (chain : List (ChainElem M H)) : RouterState M H EH :=
  { s with registeredChains := s.registeredChains ++ [(method, url, chain)] }

/-- `routeMiddlewaresKeys` in `addRoutes`: the fields of the route that are
not reserved and name a registered middleware, in field-enumeration order. -/
def routeMiddlewaresKeys {M H : Type} (stack : List (String × (Value → M)))
    (route : Route M H) : List String :=
  (objectKeys route).filter
    (fun key => !(INITIAL_ROUTE_FIELDS.contains key) && mapHas stack key)

/-- `middlewaresKeys` in `addRoutes`: the declared ordering filtered to the
route's candidate keys when an ordering was declared, else the candidates. -/
def resolvedKeys {M H : Type} (mkeys : List String)
    (stack : List (String × (Value → M))) (route : Route M H) : List String :=
  let rmk := routeMiddlewaresKeys stack route
  if 0 < mkeys.length then mkeys.filter (fun key => rmk.contains key) else rmk

/-- The chain `addRoutes` builds for one route: registry-resolved
middlewares (each factory applied to the route's field value), then the
route-local `middlewares`, then the unconditionally appended terminal
step carrying the optional handler. -/
def compileChain {M H : Type} (mkeys : List String)
    (stack : List (String × (Value → M))) (route : Route M H) : List (ChainElem M H) :=
  (resolvedKeys mkeys stack route).filterMap
      (fun key =>
        (mapGet stack key).map
          (fun middlewareInstance =>
            ChainElem.resolved key (routeField route key)
              (middlewareInstance (routeField route key))))
    ++ (route.middlewares.getD []).map ChainElem.routeLocal
    ++ [ChainElem.terminal route.handler]

/-- `addRoutes`: register the compiled chain of every route, in order. -/
def addRoutes {M H EH : Type} (s : RouterState M H EH)
    (routesList : List (Route M H)) : RouterState M H EH :=
  routesList.foldl
    (fun st route =>
      registerChain st (REQUEST_METHODS (route.method.getD INITIAL_METHOD)) route.url
        (compileChain st.middlewaresKeys st.middlewaresStack route))
    s

/-- The registrations a list of routes produces from a given setup state. -/
def compileRegs {M H : Type} (mkeys : List String)
    (stack : List (String × (Value → M))) (routesList : List (Route M H)) :
    List (String × String × List (ChainElem M H)) :=
  routesList.map
    (fun route =>
      (REQUEST_METHODS (route.method.getD INITIAL_METHOD), route.url,
        compileChain mkeys stack route))

/-- `sortMiddlewares`: add each key, in order, to the ordering set. -/
def sortMiddlewares {M H EH : Type} (s : RouterState M H EH)
    (keys : List String) : RouterState M H EH :=
  { s with middlewaresKeys := keys.foldl setAdd s.middlewaresKeys }

/-- `registerMiddlewares`: merge the given factories into the stack,
overwriting an existing binding of the same name. -/
def registerMiddlewares {M H EH : Type} (s : RouterState M H EH)
    (middlewares : List (String × (Value → M))) : RouterState M H EH :=
  { s with
    middlewaresStack :=
      middlewares.foldl (fun m kv => mapSet m kv.1 kv.2) s.middlewaresStack }

/-- What one invocation of the wrapped handler produces: the result that
escapes the wrapped call, and the trace of `errorHandler(error, context)`
invocations made by the boundary. -/
structure HandlerOutcome (E Ctx : Type) where
  result : Except E Unit
  errorHandlerCalls : List (E × Ctx)

/-- `createHandler`: with an `errorHandler` configured, the handler runs
under try/catch and a caught error is passed to `errorHandler(error,
context)`; without one, the handler runs bare.  The continuation `next`
is opaque and not modelled. -/
def createHandler {E Ctx EH : Type} (errorHandler : Option EH)
    (handler : Ctx → Except E Unit) (ctx : Ctx) : HandlerOutcome E Ctx :=
  match errorHandler with
  | some _ =>
    match handler ctx with
    | Except.ok _ => ⟨Except.ok (), []⟩
    | Except.error e => ⟨Except.ok (), [(e, ctx)]⟩
  | none =>
    match handler ctx with
    | Except.ok _ => ⟨Except.ok (), []⟩
    | Except.error e => ⟨Except.error e, []⟩

/-- Request-time behaviour of the terminal chain step
`(ctx, next) => route.handler && this.createHandler(route.handler, ctx, next)`:
with a handler it defers to `createHandler`; without one the conjunction
short-circuits and nothing runs. -/
def runTerminal {E Ctx EH : Type} (errorHandler : Option EH)
    (handlerOpt : Option (Ctx → Except E Unit)) (ctx : Ctx) : HandlerOutcome E Ctx :=
  match handlerOpt with
  | some handler => createHandler errorHandler handler ctx
  | none => ⟨Except.ok (), []⟩

/-- The keys of the registry-resolved elements of a chain, in chain order. -/
def chainResolvedKeys {M H : Type} (chain : List (ChainElem M H)) : List String :=
  chain.filterMap
    (fun e =>
      match e with
      | ChainElem.resolved key _ _ => some key
      | _ => none)

/-- Modelled from the spec (§4.2 step 2): `orderedKeys` is the declared
ordering filtered down to members of `candidateKeys` when the ordering
set is non-empty, else `candidateKeys` in field-enumeration order. -/
def specOrderedKeys (orderingDecl : List String) (candidateKeys : List String) : List String :=
  if orderingDecl = [] then candidateKeys
  else orderingDecl.filter (fun key => candidateKeys.contains key)

/-! ## Error boundary (`createHandler`) -/

/-- Claim C3: with an errorHandler supplied at construction, a handler that
throws (or rejects) makes the wrapped handler invoke the errorHandler
exactly once, with the thrown error and the request context, and the
error does not propagate out of the wrapped call. -/
theorem createHandler_with_errorHandler {E Ctx EH : Type} (eh : EH)
    (handler : Ctx → Except E Unit) (ctx : Ctx) (e : E)
    (h : handler ctx = Except.error e) :
    createHandler (some eh) handler ctx =
      ⟨Except.ok (), [(e, ctx)]⟩ := by
  simp [createHandler, h]

/-- Witness for C3 at a concrete throwing handler. -/
theorem createHandler_with_errorHandler_witness :
    createHandler (some ()) (fun _ : Nat => (Except.error 7 : Except Nat Unit)) 3 =
      ⟨Except.ok (), [(7, 3)]⟩ :=
  createHandler_with_errorHandler () (fun _ => Except.error 7) 3 7 rfl

/-- Claim C4: with no errorHandler supplied at construction, a handler that
throws (or rejects) makes the wrapped handler propagate the original
error unmodified, and no errorHandler invocation happens. -/
theorem createHandler_no_errorHandler {E Ctx EH : Type}
    (handler : Ctx → Except E Unit) (ctx : Ctx) (e : E)
    (h : handler ctx = Except.error e) :
    @createHandler E Ctx EH none handler ctx =
      ⟨Except.error e, []⟩ := by
  simp [createHandler, h]

/-- Witness for C4 at a concrete throwing handler. -/
theorem createHandler_no_errorHandler_witness :
    @createHandler Nat Nat Unit none (fun _ : Nat => (Except.error 7 : Except Nat Unit)) 3 =
      ⟨Except.error 7, []⟩ :=
  createHandler_no_errorHandler (fun _ => Except.error 7) 3 7 rfl

/-! ## Ordering declaration (`sortMiddlewares`) -/

theorem setAdd_mem_noop {s : List String} {key : String} (h : key ∈ s) :
    setAdd s key = s := by
  simp [setAdd, h]

theorem mem_setAdd_left {s : List String} {key k2 : String} (h : key ∈ s) :
    key ∈ setAdd s k2 := by
  unfold setAdd
  split
  · exact h
  · exact List.mem_append_left _ h

theorem mem_setAdd_self (s : List String) (key : String) : key ∈ setAdd s key := by
  by_cases h : key ∈ s
  · simp [setAdd, h]
  · simp [setAdd, h]

theorem mem_foldl_setAdd_left (keys : List String) (s : List String) (key : String)
    (h : key ∈ s) : key ∈ keys.foldl setAdd s := by
  induction keys generalizing s with
  | nil => exact h
  | cons a as ih => exact ih _ (mem_setAdd_left h)

theorem mem_foldl_setAdd_right (keys : List String) (s : List String) (key : String)
    (h : key ∈ keys) : key ∈ keys.foldl setAdd s := by
  induction keys generalizing s with
  | nil => cases h
  | cons a as ih =>
    rcases List.mem_cons.mp h with he | hm
    · subst he
      exact mem_foldl_setAdd_left as _ key (mem_setAdd_self s key)
    · exact ih _ hm

theorem foldl_setAdd_noop {keys s : List String} (h : ∀ k ∈ keys, k ∈ s) :
    keys.foldl setAdd s = s := by
  induction keys with
  | nil => rfl
  | cons a as ih =>
    simp only [List.foldl_cons]
    rw [setAdd_mem_noop (h a (by simp))]
    exact ih (fun k hk => h k (by simp [hk]))

/-- Claim C7: `sortMiddlewares` is additive and idempotent: a key already
in the ordering set is a no-op whether re-declared in a later call (first
conjunct) or later in the same call (second conjunct), and declaring the
same key list twice equals declaring it once (third conjunct). -/
theorem sortMiddlewares_additive_idempotent {M H EH : Type} :
    (∀ (s : RouterState M H EH) (key : String), key ∈ s.middlewaresKeys →
        sortMiddlewares s [key] = s) ∧
    (∀ (s : RouterState M H EH) (keys : List String) (key : String), key ∈ keys →
        sortMiddlewares s (keys ++ [key]) = sortMiddlewares s keys) ∧
    (∀ (s : RouterState M H EH) (keys : List String),
        sortMiddlewares (sortMiddlewares s keys) keys = sortMiddlewares s keys) := by
  refine ⟨fun s key h => ?_, fun s keys key h => ?_, fun s keys => ?_⟩
  · unfold sortMiddlewares
    simp only [List.foldl_cons, List.foldl_nil, setAdd_mem_noop h]
  · unfold sortMiddlewares
    simp only [List.foldl_append, List.foldl_cons, List.foldl_nil]
    rw [setAdd_mem_noop (mem_foldl_setAdd_right keys _ key h)]
  · unfold sortMiddlewares
    simp only
    rw [foldl_setAdd_noop (fun k hk => mem_foldl_setAdd_right keys _ k hk)]

/-- A concrete setup state used by witnesses. -/
def sampleState : RouterState Nat Nat Unit :=
  { enableLogger := false
    errorHandler := none
    middlewaresKeys := ["auth"]
    middlewaresStack := []
    registeredChains := [] }

/-- Witness for C7 at concrete states and key lists. -/
theorem sortMiddlewares_additive_idempotent_witness :
    sortMiddlewares sampleState ["auth"] = sampleState ∧
    sortMiddlewares sampleState (["a", "b"] ++ ["a"]) = sortMiddlewares sampleState ["a", "b"] ∧
    sortMiddlewares (sortMiddlewares sampleState ["x"]) ["x"] = sortMiddlewares sampleState ["x"] :=
  ⟨sortMiddlewares_additive_idempotent.1 sampleState "auth" (by simp [sampleState]),
   sortMiddlewares_additive_idempotent.2.1 sampleState ["a", "b"] "a" (by simp),
   sortMiddlewares_additive_idempotent.2.2 sampleState ["x"]⟩

/-! ## Chain structure built by `addRoutes` -/

theorem mapGet_isSome_of_mapHas {α : Type} {m : List (String × α)} {k : String}
    (h : mapHas m k = true) : ∃ v, mapGet m k = some v := by
  unfold mapHas at h
  unfold mapGet
  have hs : (m.find? (fun p => p.1 == k)).isSome := by
    rcases List.any_eq_true.mp h with ⟨p, hp, hpk⟩
    exact List.find?_isSome.mpr ⟨p, hp, hpk⟩
  rcases Option.isSome_iff_exists.mp hs with ⟨q, hq⟩
  exact ⟨q.2, by rw [hq]; rfl⟩

theorem chainResolvedKeys_append {M H : Type} (l1 l2 : List (ChainElem M H)) :
    chainResolvedKeys (l1 ++ l2) = chainResolvedKeys l1 ++ chainResolvedKeys l2 := by
  simp [chainResolvedKeys]

theorem chainResolvedKeys_routeLocal {M H : Type} (l : List M) :
    chainResolvedKeys (l.map (@ChainElem.routeLocal M H)) = [] := by
  induction l with
  | nil => rfl
  | cons a as ih =>
    simp only [List.map_cons, chainResolvedKeys, List.filterMap_cons] at ih ⊢
    exact ih

theorem chainResolvedKeys_resolvedPart {M H : Type}
    (stack : List (String × (Value → M))) (arg : String → Value)
    (keys : List String) (h : ∀ k ∈ keys, mapHas stack k = true) :
    chainResolvedKeys
      (keys.filterMap
        (fun key =>
          (mapGet stack key).map
            (fun f => (ChainElem.resolved key (arg key) (f (arg key)) : ChainElem M H)))) =
      keys := by
  induction keys with
  | nil => rfl
  | cons a as ih =>
    rcases mapGet_isSome_of_mapHas (h a (by simp)) with ⟨f, hf⟩
    have tail := ih (fun k hk => h k (by simp [hk]))
    simpa [List.filterMap_cons, hf, chainResolvedKeys] using tail

theorem mem_routeMiddlewaresKeys {M H : Type} {stack : List (String × (Value → M))}
    {route : Route M H} {k : String} (h : k ∈ routeMiddlewaresKeys stack route) :
    INITIAL_ROUTE_FIELDS.contains k = false ∧ mapHas stack k = true := by
  have hm := (List.mem_filter.mp h).2
  simp only [Bool.and_eq_true, Bool.not_eq_true'] at hm
  exact hm

theorem mem_resolvedKeys {M H : Type} {mkeys : List String}
    {stack : List (String × (Value → M))} {route : Route M H} {k : String}
    (h : k ∈ resolvedKeys mkeys stack route) : k ∈ routeMiddlewaresKeys stack route := by
  unfold resolvedKeys at h
  by_cases hl : 0 < mkeys.length
  · simp only [hl, if_true] at h
    have := (List.mem_filter.mp h).2
    exact List.mem_of_elem_eq_true this
  · simpa [hl] using h

theorem chainResolvedKeys_compileChain {M H : Type} (mkeys : List String)
    (stack : List (String × (Value → M))) (route : Route M H) :
    chainResolvedKeys (compileChain mkeys stack route) = resolvedKeys mkeys stack route := by
  unfold compileChain
  rw [chainResolvedKeys_append, chainResolvedKeys_append,
    chainResolvedKeys_routeLocal,
    chainResolvedKeys_resolvedPart stack (routeField route) _
      (fun k hk => (mem_routeMiddlewaresKeys (mem_resolvedKeys hk)).2)]
  simp [chainResolvedKeys]

theorem resolvedKeys_eq_specOrderedKeys {M H : Type} (mkeys : List String)
    (stack : List (String × (Value → M))) (route : Route M H) :
    resolvedKeys mkeys stack route =
      specOrderedKeys mkeys (routeMiddlewaresKeys stack route) := by
  unfold resolvedKeys specOrderedKeys
  cases mkeys with
  | nil => simp
  | cons a as => simp

/-- Claim C1: the registry-resolved middlewares of a compiled chain appear
in exactly the order the spec describes: the declared ordering filtered to
the route's candidate keys when an ordering was declared, else the
candidate keys in field-enumeration order (`specOrderedKeys` is written
from the spec's words; `candidateKeys` is `routeMiddlewaresKeys`). -/
theorem compileChain_resolved_order {M H : Type} (mkeys : List String)
    (stack : List (String × (Value → M))) (route : Route M H) :
    chainResolvedKeys (compileChain mkeys stack route) =
      specOrderedKeys mkeys (routeMiddlewaresKeys stack route) := by
  rw [chainResolvedKeys_compileChain, resolvedKeys_eq_specOrderedKeys]

/-- Claim C2: in every compiled chain the route-local middlewares appear
verbatim, in declared order, after every registry-resolved middleware and
directly before the terminal step, whatever the ordering declaration. -/
theorem compileChain_routeLocal_position {M H : Type} (mkeys : List String)
    (stack : List (String × (Value → M))) (route : Route M H) :
    ∃ resolvedPart : List (ChainElem M H),
      compileChain mkeys stack route =
        resolvedPart ++ (route.middlewares.getD []).map ChainElem.routeLocal
          ++ [ChainElem.terminal route.handler] ∧
      ∀ e ∈ resolvedPart, ∃ key arg mw, e = ChainElem.resolved key arg mw := by
  refine ⟨_, rfl, fun e he => ?_⟩
  rcases List.mem_filterMap.mp he with ⟨k, _, hsome⟩
  rcases Option.map_eq_some'.mp hsome with ⟨f, _, hfe⟩
  exact ⟨k, routeField route k, f (routeField route k), hfe.symm⟩

/-- Claim C5: no reserved field name (`url`, `method`, `middlewares`,
`handler`) is ever resolved as a registry middleware in any compiled
chain, whatever the registry and ordering contain. -/
theorem compileChain_no_reserved_field {M H : Type} (mkeys : List String)
    (stack : List (String × (Value → M))) (route : Route M H) :
    (chainResolvedKeys (compileChain mkeys stack route)).all
      (fun key => !(INITIAL_ROUTE_FIELDS.contains key)) = true := by
  rw [List.all_eq_true]
  intro k hk
  rw [chainResolvedKeys_compileChain] at hk
  have := (mem_routeMiddlewaresKeys (mem_resolvedKeys hk)).1
  simpa using this

/-! ## The terminal step -/

/-- Counterexample to claim C6 as stated: a route with no handler still
compiles to a chain containing the unconditionally appended terminal
step (here the whole chain is that single step), so the chain does not
end without a terminal step. -/
theorem compileChain_no_handler_counterexample :
    compileChain ([] : List String) ([] : List (String × (Value → Nat)))
        { url := "/x", method := none, middlewares := none,
          handler := (none : Option Nat), extraFields := [] } =
      [ChainElem.terminal none] := by
  rfl

/-- Claim C6 (amended): every compiled chain ends with an unconditionally
appended terminal step carrying the route's optional handler; at request
time that step invokes the handler through the error boundary
(`createHandler`) when a handler is present, and invokes nothing (a
no-op) when the handler is absent. -/
theorem compileChain_terminal_step {M H E Ctx EH : Type} (mkeys : List String)
    (stack : List (String × (Value → M))) (route : Route M H) :
    (compileChain mkeys stack route).getLast? = some (ChainElem.terminal route.handler) ∧
    (∀ (eh : Option EH) (handler : Ctx → Except E Unit) (ctx : Ctx),
        runTerminal eh (some handler) ctx = createHandler eh handler ctx) ∧
    (∀ (eh : Option EH) (ctx : Ctx),
        @runTerminal E Ctx EH eh none ctx = ⟨Except.ok (), []⟩) := by
  refine ⟨?_, fun eh handler ctx => rfl, fun eh ctx => rfl⟩
  unfold compileChain
  exact List.getLast?_concat _

/-! ## `addRoutes` as a pure function of the setup state -/

theorem addRoutes_eq {M H EH : Type} (s : RouterState M H EH)
    (routesList : List (Route M H)) :
    addRoutes s routesList =
      { s with registeredChains :=
          s.registeredChains ++
            compileRegs s.middlewaresKeys s.middlewaresStack routesList } := by
  induction routesList generalizing s with
  | nil => simp [addRoutes, compileRegs]
  | cons r rs ih =>
    show addRoutes (registerChain s _ _ _) rs = _
    rw [ih]
    simp [registerChain, compileRegs]

/-- Claim C9: `addRoutes` leaves the whole setup state (error handler,
ordering set, registry, logger flag) unchanged; its only effect is to
append the compiled registrations to the external router. -/
theorem addRoutes_frame {M H EH : Type} (s : RouterState M H EH)
    (routesList : List (Route M H)) :
    (addRoutes s routesList).errorHandler = s.errorHandler ∧
    (addRoutes s routesList).middlewaresKeys = s.middlewaresKeys ∧
    (addRoutes s routesList).middlewaresStack = s.middlewaresStack ∧
    (addRoutes s routesList).enableLogger = s.enableLogger ∧
    (addRoutes s routesList).registeredChains =
      s.registeredChains ++ compileRegs s.middlewaresKeys s.middlewaresStack routesList := by
  rw [addRoutes_eq]
  exact ⟨rfl, rfl, rfl, rfl, rfl⟩

/-- Claim C8: compilation is deterministic in the setup state: two router
instances with equal registries, ordering declarations and error-handler
configuration register, from the same route list, the same chains (same
resolved keys, arguments, instantiated middlewares and terminal step),
and their terminal steps behave identically at request time. -/
theorem addRoutes_deterministic {M H EH E Ctx : Type}
    (s1 s2 : RouterState M H EH) (routesList : List (Route M H))
    (hstack : s1.middlewaresStack = s2.middlewaresStack)
    (hkeys : s1.middlewaresKeys = s2.middlewaresKeys)
    (herr : s1.errorHandler = s2.errorHandler) :
    (addRoutes s1 routesList).registeredChains.drop s1.registeredChains.length =
      (addRoutes s2 routesList).registeredChains.drop s2.registeredChains.length ∧
    ∀ (handlerOpt : Option (Ctx → Except E Unit)) (ctx : Ctx),
      runTerminal s1.errorHandler handlerOpt ctx =
        runTerminal s2.errorHandler handlerOpt ctx := by
  constructor
  · rw [addRoutes_eq, addRoutes_eq]
    show (s1.registeredChains ++ _).drop s1.registeredChains.length =
      (s2.registeredChains ++ _).drop s2.registeredChains.length
    rw [List.drop_left, List.drop_left, hstack, hkeys]
  · intro handlerOpt ctx
    rw [herr]

/-! ## Value-independence of middleware inclusion -/

theorem mapHas_of_mapGet {α : Type} {m : List (String × α)} {k : String} {v : α}
    (h : mapGet m k = some v) : mapHas m k = true := by
  unfold mapGet at h
  rcases Option.map_eq_some'.mp h with ⟨p, hp, _⟩
  have hpk := List.find?_some hp
  exact List.any_eq_true.mpr ⟨p, List.mem_of_find?_eq_some hp, hpk⟩

/-- Claim C10: registry-middleware inclusion depends only on which extra
field keys the route declares, never on their values (first conjunct);
and a field whose key names a registered middleware and survives the
ordering declaration has the factory called with exactly the field's
value — be it `undefined`, `false` or `null` — and the result included
in the chain (second conjunct). -/
theorem inclusion_value_independent {M H : Type} :
    (∀ (mkeys : List String) (stack : List (String × (Value → M)))
        (url : String) (method : Option MethodKey) (mws : Option (List M))
        (handler : Option H) (fields1 fields2 : List (String × Value)),
        fields1.map Prod.fst = fields2.map Prod.fst →
        resolvedKeys mkeys stack ⟨url, method, mws, handler, fields1⟩ =
          resolvedKeys mkeys stack ⟨url, method, mws, handler, fields2⟩) ∧
    (∀ (mkeys : List String) (stack : List (String × (Value → M)))
        (route : Route M H) (key : String) (v : Value) (f : Value → M),
        route.extraFields.find? (fun p => p.1 == key) = some (key, v) →
        INITIAL_ROUTE_FIELDS.contains key = false →
        mapGet stack key = some f →
        (mkeys = [] ∨ key ∈ mkeys) →
        ChainElem.resolved key v (f v) ∈ compileChain mkeys stack route) := by
  constructor
  · intro mkeys stack url method mws handler fields1 fields2 h
    have hok : objectKeys (⟨url, method, mws, handler, fields1⟩ : Route M H) =
        objectKeys ⟨url, method, mws, handler, fields2⟩ := by
      unfold objectKeys
      rw [h]
    unfold resolvedKeys routeMiddlewaresKeys
    rw [hok]
  · intro mkeys stack route key v f hfind hres hget hord
    have hkeym : key ∈ route.extraFields.map Prod.fst :=
      List.mem_map.mpr ⟨(key, v), List.mem_of_find?_eq_some hfind, rfl⟩
    have hko : key ∈ objectKeys route := by
      unfold objectKeys
      exact List.mem_append_right _ hkeym
    have hres2 : key ∉ INITIAL_ROUTE_FIELDS := by simpa using hres
    have hrmk : key ∈ routeMiddlewaresKeys stack route :=
      List.mem_filter.mpr ⟨hko, by simp [hres2, mapHas_of_mapGet hget]⟩
    have hrk : key ∈ resolvedKeys mkeys stack route := by
      unfold resolvedKeys
      cases mkeys with
      | nil => simpa using hrmk
      | cons a as =>
        rcases hord with hnil | hmem
        · exact absurd hnil (by simp)
        · simp only [List.length_cons, Nat.zero_lt_succ, if_true]
          exact List.mem_filter.mpr ⟨hmem, List.elem_eq_true_of_mem hrmk⟩
    have hval : routeField route key = v := by
      unfold routeField
      rw [hfind]
    have hmemf : (ChainElem.resolved key v (f v) : ChainElem M H) ∈
        (resolvedKeys mkeys stack route).filterMap
          (fun key =>
            (mapGet stack key).map
              (fun middlewareInstance =>
                (ChainElem.resolved key (routeField route key)
                  (middlewareInstance (routeField route key)) : ChainElem M H))) :=
      List.mem_filterMap.mpr ⟨key, hrk, by rw [hget, hval]; rfl⟩
    unfold compileChain
    exact List.mem_append_left _ (List.mem_append_left _ hmemf)

/-- A concrete middleware factory used by witnesses. -/
def sampleFactory : Value → Nat :=
  fun v =>
    match v with
    | Value.bool true => 1
    | _ => 0

/-- A concrete registry used by witnesses. -/
def sampleStack : List (String × (Value → Nat)) := [("auth", sampleFactory)]

/-- A concrete route whose `auth` field is explicitly `undefined`. -/
def undefRoute : Route Nat Nat :=
  { url := "/x", method := none, middlewares := none, handler := none,
    extraFields := [("auth", Value.undef)] }

/-- Witness for C10: swapping the `auth` value for another value leaves the
resolved keys unchanged, and an `undefined`-valued `auth` field still has
the factory called with `undefined` and its result put in the chain. -/
theorem inclusion_value_independent_witness :
    resolvedKeys [] sampleStack
        (⟨"/x", none, none, (none : Option Nat), [("auth", Value.undef)]⟩ : Route Nat Nat) =
      resolvedKeys [] sampleStack
        (⟨"/x", none, none, none, [("auth", Value.bool true)]⟩ : Route Nat Nat) ∧
    ChainElem.resolved "auth" Value.undef (sampleFactory Value.undef) ∈
      compileChain [] sampleStack undefRoute :=
  ⟨inclusion_value_independent.1 [] sampleStack "/x" none none none
      [("auth", Value.undef)] [("auth", Value.bool true)] rfl,
   inclusion_value_independent.2 [] sampleStack undefRoute "auth" Value.undef
      sampleFactory rfl (by decide) rfl (Or.inl rfl)⟩

/-- A second concrete setup state: same registry, ordering and error
handler as `detState1` but a different logger flag and different chains
already registered on the external router. -/
def detState2 : RouterState Nat Nat Unit :=
  { enableLogger := true
    errorHandler := some ()
    middlewaresKeys := ["auth"]
    middlewaresStack := sampleStack
    registeredChains := [("get", "/old", [])] }

/-- A concrete setup state for the determinism witness. -/
def detState1 : RouterState Nat Nat Unit :=
  { enableLogger := false
    errorHandler := some ()
    middlewaresKeys := ["auth"]
    middlewaresStack := sampleStack
    registeredChains := [] }

/-- A concrete route list for the determinism witness. -/
def sampleRoutes : List (Route Nat Nat) :=
  [{ url := "/x", method := some MethodKey.GET, middlewares := some [5],
     handler := some 9, extraFields := [("auth", Value.bool true)] }]

/-- Witness for C8 at two concrete states differing only in logger flag
and previously registered chains. -/
theorem addRoutes_deterministic_witness :
    (addRoutes detState1 sampleRoutes).registeredChains.drop
        detState1.registeredChains.length =
      (addRoutes detState2 sampleRoutes).registeredChains.drop
        detState2.registeredChains.length ∧
    runTerminal detState1.errorHandler
        (some (fun _ : Nat => (Except.error 3 : Except Nat Unit))) 5 =
      runTerminal detState2.errorHandler
        (some (fun _ : Nat => (Except.error 3 : Except Nat Unit))) 5 :=
  ⟨(@addRoutes_deterministic Nat Nat Unit Nat Nat detState1 detState2 sampleRoutes
      rfl rfl rfl).1,
   (@addRoutes_deterministic Nat Nat Unit Nat Nat detState1 detState2 sampleRoutes
      rfl rfl rfl).2 (some (fun _ => Except.error 3)) 5⟩
